import Mathlib

/-!
Shallow embedding of the statistics engine of `src/utils/calculations.ts`
(a trading P&L calendar).  Day records are lists of `DayEntry`; JavaScript
numbers are modelled as exact rationals (reals where square roots occur),
and the JavaScript `Infinity` sentinel as the `NumV.inf` constructor.
`Array.prototype.sort` (stable since ES2019) is modelled by
`List.mergeSort` with the comparator's "less or equal" relation.

Rational arithmetic is made semireducible so that the kernel can evaluate
the engine on concrete record collections.
-/

set_option allowUnsafeReducibility true
attribute [local semireducible] Rat.add Rat.mul Rat.sub Rat.div Rat.inv

unseal String.ltb

/-- Mirror of the `Trade` interface of `src/types.ts`. -/
structure Trade where
  symbol : String
  percentReturn : ℚ
deriving DecidableEq, Repr

/-- Mirror of the `DayEntry` interface of `src/types.ts`.  `fallingKnives`
is optional in the source (`fallingKnives?: number`), hence `Option`. -/
structure DayEntry where
  id : String
  totalPL : ℚ
  trades : List Trade
  numberOfTrades : ℚ
  notes : String
  tags : List String
  fallingKnives : Option ℚ
deriving DecidableEq, Repr

/-- A JavaScript number that is either finite or the `Infinity` sentinel. -/
inductive NumV (α : Type) where
  | num : α → NumV α
  | inf : NumV α
deriving DecidableEq, Repr

/-- Test fixture: an entry with the given date key and P&L and no other data. -/
def mkE (id : String) (pl : ℚ) : DayEntry :=
  { id := id, totalPL := pl, trades := [], numberOfTrades := 0, notes := ""
    tags := [], fallingKnives := none }

/-- `[...entries].sort((a, b) => a.id.localeCompare(b.id))`. -/
def sortById (entries : List DayEntry) : List DayEntry :=
  entries.mergeSort fun a b => decide (a.id ≤ b.id)

/-- `filterOutliers`: keep entries with `totalPL < 10000`. -/
def filterOutliers (entries : List DayEntry) : List DayEntry :=
  entries.filter fun e => decide (e.totalPL < 10000)

/-- `calculateCumulativePL`: `entries.reduce((sum, entry) => sum + entry.totalPL, 0)`. -/
def calculateCumulativePL (entries : List DayEntry) : ℚ :=
  entries.foldl (fun sum entry => sum + entry.totalPL) 0

/-- `calculateWinRate`. -/
def calculateWinRate (entries : List DayEntry) : ℚ :=
  let tradingDays := entries.filter fun e => decide (e.totalPL ≠ 0)
  if tradingDays.length = 0 then 0
  else
    let wins := (tradingDays.filter fun e => decide (e.totalPL > 0)).length
    ((wins : ℚ) / (tradingDays.length : ℚ)) * 100

/-- `calculateFKWinRate`: win rate over days with `totalPL !== 0 &&
(e.fallingKnives || 0) === 0`. -/
def calculateFKWinRate (entries : List DayEntry) : ℚ :=
  let nonFKDays := entries.filter fun e =>
    decide (e.totalPL ≠ 0) && decide (e.fallingKnives.getD 0 = 0)
  if nonFKDays.length = 0 then 0
  else
    let wins := (nonFKDays.filter fun e => decide (e.totalPL > 0)).length
    ((wins : ℚ) / (nonFKDays.length : ℚ)) * 100

/-- One loop iteration of `calculateMaxDrawdown` (the body of the `forEach`).
`peak || 1` is JavaScript falsy coalescing: the divisor is 1 exactly when
`peak` is 0. -/
structure DDState where
  peak : ℚ
  maxDrawdown : ℚ
  cumulative : ℚ
deriving DecidableEq, Repr

def mddStep (s : DDState) (entry : DayEntry) : DDState :=
  let cumulative := s.cumulative + entry.totalPL
  let peak := if cumulative > s.peak then cumulative else s.peak
  let drawdown := ((peak - cumulative) / (if peak = 0 then 1 else peak)) * 100
  let maxDrawdown := if drawdown > s.maxDrawdown then drawdown else s.maxDrawdown
  { peak := peak, maxDrawdown := maxDrawdown, cumulative := cumulative }

/-- `calculateMaxDrawdown`. -/
def calculateMaxDrawdown (entries : List DayEntry) : ℚ :=
  ((sortById entries).foldl mddStep { peak := 0, maxDrawdown := 0, cumulative := 0 }).maxDrawdown

/-- `calculateProfitFactor`. -/
def calculateProfitFactor (entries : List DayEntry) : NumV ℚ :=
  let profits := (entries.filter fun e => decide (e.totalPL > 0)).foldl
    (fun sum e => sum + e.totalPL) 0
  let losses := |(entries.filter fun e => decide (e.totalPL < 0)).foldl
    (fun sum e => sum + e.totalPL) 0|
  if losses = 0 then (if profits > 0 then NumV.inf else NumV.num 0)
  else NumV.num (profits / losses)

/-- `calculateRecoveryFactor`. -/
def calculateRecoveryFactor (entries : List DayEntry) : NumV ℚ :=
  let netProfit := calculateCumulativePL entries
  let maxDrawdownPercent := calculateMaxDrawdown entries
  if maxDrawdownPercent = 0 then (if netProfit > 0 then NumV.inf else NumV.num 0)
  else NumV.num (netProfit / maxDrawdownPercent)

/-- `calculateCalmarRatio`. -/
def calculateCalmarRatio (entries : List DayEntry) : NumV ℚ :=
  if entries.length = 0 then NumV.num 0
  else
    let sorted := sortById entries
    let totalPL := sorted.foldl (fun sum e => sum + e.totalPL) 0
    let dayCount : ℚ := (sorted.length : ℚ)
    let annualizedReturn := (totalPL / dayCount) * 252
    let maxDrawdownPercent := calculateMaxDrawdown entries
    if maxDrawdownPercent = 0 then (if annualizedReturn > 0 then NumV.inf else NumV.num 0)
    else NumV.num (annualizedReturn / maxDrawdownPercent)

/-- `calculateSortinoRatio`, over the reals (`Math.sqrt` is `Real.sqrt`).
`Math.pow(r - mean, 2)` is `(r - mean) ^ 2`. -/
noncomputable def calculateSortinoRatio (entries : List DayEntry) : NumV ℝ :=
  let sortedEntries := sortById entries
  if sortedEntries.length = 0 then NumV.num 0
  else
    let returns : List ℝ := sortedEntries.map fun e => ((e.totalPL : ℚ) : ℝ)
    let mean := returns.foldl (fun sum r => sum + r) 0 / (returns.length : ℝ)
    let downsideReturns := returns.filter fun r => decide (r < mean)
    if downsideReturns.length = 0 then (if mean > 0 then NumV.inf else NumV.num 0)
    else
      let downsideVariance :=
        downsideReturns.foldl (fun sum r => sum + (r - mean) ^ 2) 0 / (returns.length : ℝ)
      let downsideDeviation := Real.sqrt downsideVariance
      if downsideDeviation = 0 then (if mean > 0 then NumV.inf else NumV.num 0)
      else NumV.num ((mean / downsideDeviation) * Real.sqrt 252)

/-- One iteration of the `forEach` loop of `getWinLossStreaks`; `n` is the
length of the sorted, zero-filtered list. -/
structure StreakState where
  currentStreak : ℤ
  longestWinStreak : ℤ
  longestLossStreak : ℤ
  tempWinStreak : ℤ
  tempLossStreak : ℤ
deriving DecidableEq, Repr

structure Streaks where
  currentStreak : ℤ
  longestWinStreak : ℤ
  longestLossStreak : ℤ
deriving DecidableEq, Repr

def streakStep (n : Nat) (s : StreakState) (p : Nat × DayEntry) : StreakState :=
  let index := p.1
  let entry := p.2
  if entry.totalPL > 0 then
    let tempWinStreak := s.tempWinStreak + 1
    { currentStreak := if index = n - 1 then tempWinStreak else s.currentStreak
      longestWinStreak :=
        if tempWinStreak > s.longestWinStreak then tempWinStreak else s.longestWinStreak
      longestLossStreak := s.longestLossStreak
      tempWinStreak := tempWinStreak
      tempLossStreak := 0 }
  else
    let tempLossStreak := s.tempLossStreak + 1
    { currentStreak := if index = n - 1 then -tempLossStreak else s.currentStreak
      longestWinStreak := s.longestWinStreak
      longestLossStreak :=
        if tempLossStreak > s.longestLossStreak then tempLossStreak else s.longestLossStreak
      tempWinStreak := 0
      tempLossStreak := tempLossStreak }

/-- `getWinLossStreaks`: sort by id, drop zero-P&L days, then run the loop. -/
def getWinLossStreaks (entries : List DayEntry) : Streaks :=
  let sortedEntries := (sortById entries).filter fun e => decide (e.totalPL ≠ 0)
  let s := sortedEntries.enum.foldl (streakStep sortedEntries.length)
    { currentStreak := 0, longestWinStreak := 0, longestLossStreak := 0
      tempWinStreak := 0, tempLossStreak := 0 }
  { currentStreak := s.currentStreak, longestWinStreak := s.longestWinStreak
    longestLossStreak := s.longestLossStreak }

/-- `parseDateString`: split `"YYYY-MM-DD"` on `-` and read the components. -/
def parseYMD (dateStr : String) : Nat × Nat × Nat :=
  match (dateStr.splitOn "-").map (fun s => s.toNat?.getD 0) with
  | [y, m, d] => (y, m, d)
  | _ => (0, 0, 0)

/-- `Date(year, month - 1, day).getDay()`: the Gregorian weekday of a local
calendar date, 0 = Sunday .. 6 = Saturday, by Zeller's congruence. -/
def dayOfWeek (dateStr : String) : Nat :=
  let p := parseYMD dateStr
  let y := p.1
  let m := p.2.1
  let d := p.2.2
  let m1 := if m ≤ 2 then m + 12 else m
  let y1 := if m ≤ 2 then y - 1 else y
  let k := y1 % 100
  let j := y1 / 100
  let h := (d + 13 * (m1 + 1) / 5 + k + k / 4 + j / 4 + 5 * j) % 7
  (h + 6) % 7

/-- The fixed bucket labels of `getPLByDayOfWeek`. -/
def daysOfWeek : List String :=
  ["Sunday", "Monday", "Tuesday", "Wednesday", "Thursday", "Friday", "Saturday"]

/-- One iteration of the `forEach` of `getPLByDayOfWeek`: the `Map` is a
total function defaulting to 0 (`dayMap.get(i) || 0` reads 0 when absent). -/
def dowStep (m : Nat → ℚ) (entry : DayEntry) : Nat → ℚ :=
  fun i => if i = dayOfWeek entry.id then m i + entry.totalPL else m i

/-- `getPLByDayOfWeek`. -/
def getPLByDayOfWeek (entries : List DayEntry) : List (String × ℚ) :=
  let dayMap := entries.foldl dowStep (fun _ => 0)
  daysOfWeek.enum.map fun p => (p.2, dayMap p.1)

/-- Result record of `calculateRMultiples`. -/
structure RMultiples where
  avgWinR : ℚ
  avgLossR : ℚ
  rMultiples : List ℚ
deriving DecidableEq, Repr

/-- `calculateRMultiples`.  Note the default `1` (not 0) for `avgLoss` when
there are no losing days. -/
def calculateRMultiples (entries : List DayEntry) : RMultiples :=
  let wins := entries.filter fun e => decide (e.totalPL > 0)
  let losses := entries.filter fun e => decide (e.totalPL < 0)
  let avgWin := if wins.length > 0
    then (wins.foldl (fun sum e => sum + e.totalPL) 0) / (wins.length : ℚ) else 0
  let avgLoss := if losses.length > 0
    then |(losses.foldl (fun sum e => sum + e.totalPL) 0) / (losses.length : ℚ)| else 1
  { avgWinR := if avgLoss > 0 then avgWin / avgLoss else 0
    avgLossR := -1
    rMultiples := entries.map fun e => if avgLoss = 0 then 0 else e.totalPL / avgLoss }

/-- Result record of `calculateRiskMetrics`. -/
structure RiskMetrics where
  valueAtRisk95 : ℚ
  valueAtRisk99 : ℚ
  conditionalVaR95 : ℚ
deriving DecidableEq, Repr

/-- `[...entries].sort((a, b) => a.totalPL - b.totalPL)`. -/
def sortByPL (entries : List DayEntry) : List DayEntry :=
  entries.mergeSort fun a b => decide (a.totalPL ≤ b.totalPL)

/-- `calculateRiskMetrics`.  `Math.floor(n * 0.05)` and `Math.floor(n * 0.01)`
are the natural-number divisions `n * 5 / 100` and `n * 1 / 100`;
`sorted[i]?.totalPL || 0` is the 0-defaulted optional lookup. -/
def calculateRiskMetrics (entries : List DayEntry) : RiskMetrics :=
  let sorted := sortByPL entries
  let index95 := sorted.length * 5 / 100
  let index99 := sorted.length * 1 / 100
  let valueAtRisk95 := ((sorted[index95]?).map (·.totalPL)).getD 0
  let valueAtRisk99 := ((sorted[index99]?).map (·.totalPL)).getD 0
  let tailLosses := sorted.take index95
  let conditionalVaR95 := if tailLosses.length > 0
    then (tailLosses.foldl (fun sum e => sum + e.totalPL) 0) / (tailLosses.length : ℚ) else 0
  { valueAtRisk95 := valueAtRisk95, valueAtRisk99 := valueAtRisk99
    conditionalVaR95 := conditionalVaR95 }

/- Helper lemmas about left folds of sums, used to relate the source's
`reduce((sum, x) => sum + f(x), 0)` loops to `List.sum`. -/

theorem foldl_add_map {α M : Type} [AddCommMonoid M] (f : α → M) (l : List α) (c : M) :
    l.foldl (fun sum x => sum + f x) c = c + (l.map f).sum := by
  induction l generalizing c with
  | nil => simp
  | cons a t ih => simp [ih, add_assoc]

theorem foldl_totalPL (l : List DayEntry) (c : ℚ) :
    l.foldl (fun sum e => sum + e.totalPL) c = c + (l.map (·.totalPL)).sum :=
  foldl_add_map (·.totalPL) l c

example : calculateCumulativePL [mkE "a" 3, mkE "b" (-1)] = 2 := by decide
example : calculateProfitFactor [mkE "a" 3] = NumV.inf := by decide
example : calculateMaxDrawdown [mkE "2024-01-01" (1/2), mkE "2024-01-02" (-1/2)] = 100 := by
  have h : sortById [mkE "2024-01-01" (1/2), mkE "2024-01-02" (-1/2)] =
      [mkE "2024-01-01" (1/2), mkE "2024-01-02" (-1/2)] :=
    List.mergeSort_of_sorted (by decide)
  unfold calculateMaxDrawdown
  rw [h]
  decide

theorem foldl_add_list {M : Type} [AddCommMonoid M] (l : List M) (c : M) :
    l.foldl (fun sum r => sum + r) c = c + l.sum := by
  induction l generalizing c with
  | nil => simp
  | cons a t ih => simp [ih, add_assoc]

/-- Claim-side definition for C9: the percentage of positive-P&L records
among the records with nonzero P&L, 0 when there are no such records. -/
def winRateFormula (entries : List DayEntry) : ℚ :=
  let tradingDays := entries.filter fun e => decide (e.totalPL ≠ 0)
  if tradingDays = [] then 0
  else ((tradingDays.filter fun e => decide (e.totalPL > 0)).length : ℚ) /
    (tradingDays.length : ℚ) * 100

/-- Claim C6: `calculateCumulativePL` of a non-empty collection is the sum of
`totalPL` over all records, and it is invariant under permutation of the
input. -/
theorem cumulativePL_order_independent (l l2 : List DayEntry) (h : l ≠ [])
    (hp : l.Perm l2) :
    calculateCumulativePL l = (l.map (·.totalPL)).sum ∧
    calculateCumulativePL l2 = calculateCumulativePL l := by
  have hs : (l.map (·.totalPL)).sum = (l2.map (·.totalPL)).sum :=
    (hp.map (·.totalPL)).sum_eq
  constructor
  · simpa using foldl_totalPL l 0
  · unfold calculateCumulativePL
    rw [foldl_totalPL, foldl_totalPL, hs]

/-- Witness for C6 at a concrete two-record collection and its swap. -/
theorem cumulativePL_order_independent_witness :
    calculateCumulativePL [mkE "a" 1, mkE "b" 2] =
      ([mkE "a" 1, mkE "b" 2].map (·.totalPL)).sum ∧
    calculateCumulativePL [mkE "b" 2, mkE "a" 1] =
      calculateCumulativePL [mkE "a" 1, mkE "b" 2] :=
  cumulativePL_order_independent [mkE "a" 1, mkE "b" 2] [mkE "b" 2, mkE "a" 1]
    (by decide) (List.Perm.swap (mkE "b" 2) (mkE "a" 1) [])

/-- Claim C8: `filterOutliers` keeps exactly the records with
`totalPL < 10000`, in their original order (it returns a sublist, and the
multiplicity of a record is unchanged when its `totalPL` is below 10000 and
zero otherwise). -/
theorem filterOutliers_members (entries : List DayEntry) :
    (filterOutliers entries).Sublist entries ∧
    ∀ e : DayEntry, (filterOutliers entries).count e =
      if e.totalPL < 10000 then entries.count e else 0 := by
  constructor
  · exact List.filter_sublist _
  · intro e
    by_cases h : e.totalPL < 10000
    · simp [filterOutliers, List.count_filter, h]
    · rw [if_neg h, List.count_eq_zero]
      simp [filterOutliers, List.mem_filter, h]

/-- Claim C9: when every record's `fallingKnives` is absent or 0,
`calculateFKWinRate` coincides with `calculateWinRate`, and the latter is the
percentage of positive-P&L records among nonzero-P&L records (0 with none). -/
theorem fkWinRate_eq_winRate (entries : List DayEntry)
    (h : ∀ e ∈ entries, e.fallingKnives = none ∨ e.fallingKnives = some 0) :
    calculateFKWinRate entries = calculateWinRate entries ∧
    calculateWinRate entries = winRateFormula entries := by
  have hf : (entries.filter fun e =>
        decide (e.totalPL ≠ 0) && decide (e.fallingKnives.getD 0 = 0))
      = entries.filter fun e => decide (e.totalPL ≠ 0) := by
    apply List.filter_congr
    intro a ha
    rcases h a ha with h0 | h0 <;> simp [h0]
  constructor
  · unfold calculateFKWinRate calculateWinRate
    rw [hf]
  · unfold calculateWinRate winRateFormula
    by_cases h0 : entries.filter (fun e => decide (e.totalPL ≠ 0)) = [] <;>
      simp [h0, List.length_eq_zero]

/-- Witness for C9 at a concrete collection without falling knives. -/
theorem fkWinRate_eq_winRate_witness :
    calculateFKWinRate [mkE "a" 5, mkE "b" (-2)] =
      calculateWinRate [mkE "a" 5, mkE "b" (-2)] ∧
    calculateWinRate [mkE "a" 5, mkE "b" (-2)] =
      winRateFormula [mkE "a" 5, mkE "b" (-2)] :=
  fkWinRate_eq_winRate [mkE "a" 5, mkE "b" (-2)] (by decide)

/-- Claim C10: `avgLossR` is the constant `-1`; with no losing day the
average-loss unit defaults to 1, so `rMultiples` is the list of raw `totalPL`
values in input order and `avgWinR` is the mean positive `totalPL` (0 with no
winning day). -/
theorem rMultiples_no_losses (entries : List DayEntry) :
    (calculateRMultiples entries).avgLossR = -1 ∧
    ((∀ e ∈ entries, ¬ e.totalPL < 0) →
      (calculateRMultiples entries).rMultiples = entries.map (·.totalPL) ∧
      (calculateRMultiples entries).avgWinR =
        (if (entries.filter fun e => decide (e.totalPL > 0)) = [] then 0
         else ((entries.filter fun e => decide (e.totalPL > 0)).map (·.totalPL)).sum /
           ((entries.filter fun e => decide (e.totalPL > 0)).length : ℚ))) := by
  refine ⟨rfl, fun h => ?_⟩
  have hl : entries.filter (fun e => decide (e.totalPL < 0)) = [] := by
    rw [List.filter_eq_nil_iff]
    intro a ha
    simpa using h a ha
  unfold calculateRMultiples
  rw [hl]
  constructor
  · simp
  · by_cases hw : entries.filter (fun e => decide (e.totalPL > 0)) = [] <;>
      simp [hw, foldl_totalPL, List.length_eq_zero]

/-- Witness for C10 at a concrete loss-free collection. -/
theorem rMultiples_no_losses_witness :
    (calculateRMultiples [mkE "a" 3, mkE "b" 0]).avgLossR = -1 ∧
    (calculateRMultiples [mkE "a" 3, mkE "b" 0]).rMultiples =
      [mkE "a" 3, mkE "b" 0].map (·.totalPL) :=
  ⟨(rMultiples_no_losses [mkE "a" 3, mkE "b" 0]).1,
   ((rMultiples_no_losses [mkE "a" 3, mkE "b" 0]).2 (by decide)).1⟩

/-- Claim C4: each of the three ratio metrics is the `Infinity` sentinel
exactly when its denominator is 0 while its numerator is strictly positive
(profit factor: absolute sum of negative P&L vs sum of positive P&L;
recovery factor: max drawdown percent vs cumulative P&L; Calmar: max
drawdown percent vs annualized return); in all other cases, the empty
collection included, the result is a finite rational `NumV.num` value. -/
theorem ratio_infinity_iff (entries : List DayEntry) :
    (calculateProfitFactor entries = NumV.inf ↔
      |((entries.filter fun e => decide (e.totalPL < 0)).map (·.totalPL)).sum| = 0 ∧
        0 < ((entries.filter fun e => decide (e.totalPL > 0)).map (·.totalPL)).sum) ∧
    (calculateRecoveryFactor entries = NumV.inf ↔
      calculateMaxDrawdown entries = 0 ∧ 0 < (entries.map (·.totalPL)).sum) ∧
    (calculateCalmarRatio entries = NumV.inf ↔
      calculateMaxDrawdown entries = 0 ∧
        0 < ((entries.map (·.totalPL)).sum / (entries.length : ℚ)) * 252) := by
  refine ⟨?_, ?_, ?_⟩
  · unfold calculateProfitFactor
    rw [foldl_totalPL, foldl_totalPL]
    by_cases hl : |(0 + ((entries.filter fun e => decide (e.totalPL < 0)).map (·.totalPL)).sum)| = 0
    · rw [if_pos hl]
      by_cases hp : (0 : ℚ) + ((entries.filter fun e => decide (e.totalPL > 0)).map (·.totalPL)).sum > 0
      · simp_all
      · simp_all
    · rw [if_neg hl]
      simp_all
  · unfold calculateRecoveryFactor calculateCumulativePL
    rw [foldl_totalPL]
    by_cases hd : calculateMaxDrawdown entries = 0
    · rw [if_pos hd]
      by_cases hp : (0 : ℚ) + (entries.map (·.totalPL)).sum > 0
      · simp_all
      · simp_all
    · rw [if_neg hd]
      simp_all
  · have hperm : ((sortById entries).map (·.totalPL)).sum = (entries.map (·.totalPL)).sum :=
      ((List.mergeSort_perm entries _).map (·.totalPL)).sum_eq
    have hlen : (sortById entries).length = entries.length := by
      unfold sortById
      exact List.length_mergeSort entries
    by_cases h0 : entries.length = 0
    · rw [List.length_eq_zero] at h0
      subst h0
      simp [calculateCalmarRatio]
    · simp only [calculateCalmarRatio, if_neg h0, foldl_totalPL, hperm, hlen]
      by_cases hd : calculateMaxDrawdown entries = 0
      · rw [if_pos hd]
        by_cases hp : ((0 : ℚ) + (entries.map (·.totalPL)).sum / (entries.length : ℚ)) * 252 > 0
        · simp_all
        · simp_all
      · rw [if_neg hd]
        simp_all

/-- Claim-side definition for C7: the total `totalPL` of the records falling
on weekday `i` (0 = Sunday). -/
def weekdayPL (entries : List DayEntry) (i : Nat) : ℚ :=
  ((entries.filter fun e => decide (dayOfWeek e.id = i)).map (·.totalPL)).sum

/-- Claim-side definition for C7: the seven buckets in fixed Sunday-first
order, each holding the sum of `totalPL` over its weekday (0 with no
records). -/
def plByDayOfWeekSpec (entries : List DayEntry) : List (String × ℚ) :=
  [("Sunday", weekdayPL entries 0), ("Monday", weekdayPL entries 1),
   ("Tuesday", weekdayPL entries 2), ("Wednesday", weekdayPL entries 3),
   ("Thursday", weekdayPL entries 4), ("Friday", weekdayPL entries 5),
   ("Saturday", weekdayPL entries 6)]

theorem dowStep_foldl (entries : List DayEntry) (m : Nat → ℚ) (i : Nat) :
    (entries.foldl dowStep m) i = m i + weekdayPL entries i := by
  induction entries generalizing m with
  | nil => simp [weekdayPL]
  | cons e t ih =>
    rw [List.foldl_cons, ih]
    unfold dowStep weekdayPL
    by_cases h : dayOfWeek e.id = i
    · rw [if_pos h.symm, List.filter_cons_of_pos (by simp [h]), List.map_cons,
        List.sum_cons]
      ring
    · simp [h, Ne.symm h]

/-- Claim C7: `getPLByDayOfWeek` always returns exactly the seven weekday
buckets in fixed Sunday-first order, each carrying the sum of `totalPL` over
the records whose `id` falls on that weekday (0 for an empty bucket). -/
theorem plByDayOfWeek_eq_spec (entries : List DayEntry) :
    getPLByDayOfWeek entries = plByDayOfWeekSpec entries := by
  have he : daysOfWeek.enum =
      [(0, "Sunday"), (1, "Monday"), (2, "Tuesday"), (3, "Wednesday"),
       (4, "Thursday"), (5, "Friday"), (6, "Saturday")] := rfl
  unfold getPLByDayOfWeek plByDayOfWeekSpec
  rw [he]
  simp [dowStep_foldl]

/- Claim-side definitions for C1: declarative prefix formulation of the
drawdown walk over the chronologically sorted list. -/

/-- Cumulative P&L after the first `k` records of `l`. -/
def cumAt (l : List DayEntry) (k : Nat) : ℚ :=
  ((l.take k).map (·.totalPL)).sum

/-- Running peak of the cumulative sums after `0, 1, ..., k` records
(the walk starts from peak 0). -/
def peakAt (l : List DayEntry) (k : Nat) : ℚ :=
  ((List.range (k + 1)).map fun j => cumAt l j).foldl max 0

/-- The drawdown value computed at step `k` with the source's divisor
`peak || 1` (1 exactly when the peak is 0). -/
def drawdownAt (l : List DayEntry) (k : Nat) : ℚ :=
  ((peakAt l k - cumAt l k) / (if peakAt l k = 0 then 1 else peakAt l k)) * 100

/-- The drawdown value at step `k` as the claim states it, with divisor
`max(peak, 1)`. -/
def drawdownAtClaim (l : List DayEntry) (k : Nat) : ℚ :=
  ((peakAt l k - cumAt l k) / max (peakAt l k) 1) * 100

/-- Largest drawdown seen over the whole walk (0 for an empty list). -/
def ddMax (l : List DayEntry) : ℚ :=
  ((List.range l.length).map fun k => drawdownAt l (k + 1)).foldl max 0

/-- Amended claim C1: max drawdown as a declarative maximum over prefixes of
the id-sorted record list, with the source's `peak || 1` divisor. -/
def maxDrawdownSpecAmended (entries : List DayEntry) : ℚ :=
  ddMax (sortById entries)

/-- Claim C1 as stated: the same maximum but with divisor `max(peak, 1)`. -/
def maxDrawdownSpecClaim (entries : List DayEntry) : ℚ :=
  let l := sortById entries
  ((List.range l.length).map fun k => drawdownAtClaim l (k + 1)).foldl max 0

theorem if_gt_eq_max (a b : ℚ) : (if b > a then b else a) = max a b := by
  rcases le_or_lt b a with h | h
  · rw [if_neg (not_lt.mpr h), max_eq_left h]
  · rw [if_pos h, max_eq_right h.le]

theorem cumAt_append_left (xs : List DayEntry) (e : DayEntry) (k : Nat)
    (h : k ≤ xs.length) : cumAt (xs ++ [e]) k = cumAt xs k := by
  unfold cumAt
  rw [List.take_append_of_le_length h]

theorem cumAt_last (xs : List DayEntry) (e : DayEntry) :
    cumAt (xs ++ [e]) (xs.length + 1) = cumAt xs xs.length + e.totalPL := by
  unfold cumAt
  rw [List.take_append, List.take_length]
  simp

theorem peakAt_succ (l : List DayEntry) (k : Nat) :
    peakAt l (k + 1) = max (peakAt l k) (cumAt l (k + 1)) := by
  unfold peakAt
  rw [List.range_succ, List.map_append, List.foldl_append]
  simp

theorem peakAt_append_left (xs : List DayEntry) (e : DayEntry) (k : Nat)
    (h : k ≤ xs.length) : peakAt (xs ++ [e]) k = peakAt xs k := by
  unfold peakAt
  congr 1
  apply List.map_congr_left
  intro j hj
  rw [List.mem_range] at hj
  exact cumAt_append_left xs e j (by omega)

theorem drawdownAt_append_left (xs : List DayEntry) (e : DayEntry) (k : Nat)
    (h : k ≤ xs.length) : drawdownAt (xs ++ [e]) k = drawdownAt xs k := by
  unfold drawdownAt
  rw [peakAt_append_left xs e k h, cumAt_append_left xs e k h]

theorem ddMax_append (xs : List DayEntry) (e : DayEntry) :
    ddMax (xs ++ [e]) = max (ddMax xs) (drawdownAt (xs ++ [e]) (xs.length + 1)) := by
  unfold ddMax
  rw [show (xs ++ [e]).length = xs.length + 1 by simp, List.range_succ,
    List.map_append, List.foldl_append]
  simp only [List.map_cons, List.map_nil, List.foldl_cons, List.foldl_nil]
  congr 2
  apply List.map_congr_left
  intro j hj
  rw [List.mem_range] at hj
  exact drawdownAt_append_left xs e (j + 1) (by omega)

/-- The fold of the source's loop body computes the declarative peak,
maximum drawdown and cumulative sum of the whole list. -/
theorem mddStep_foldl (l : List DayEntry) :
    l.foldl mddStep { peak := 0, maxDrawdown := 0, cumulative := 0 } =
      { peak := peakAt l l.length, maxDrawdown := ddMax l
        cumulative := cumAt l l.length } := by
  induction l using List.reverseRecOn with
  | nil =>
    show _ = DDState.mk _ _ _
    rw [List.foldl_nil]
    simp [peakAt, ddMax, cumAt]
  | append_singleton xs e ih =>
    rw [List.foldl_append, ih, List.foldl_cons, List.foldl_nil]
    have hcum : cumAt xs xs.length + e.totalPL = cumAt (xs ++ [e]) (xs.length + 1) :=
      (cumAt_last xs e).symm
    have hpeak : (if cumAt (xs ++ [e]) (xs.length + 1) > peakAt xs xs.length
          then cumAt (xs ++ [e]) (xs.length + 1) else peakAt xs xs.length)
        = peakAt (xs ++ [e]) (xs.length + 1) := by
      rw [if_gt_eq_max, peakAt_succ, peakAt_append_left xs e _ (le_refl _)]
    have hlen : (xs ++ [e]).length = xs.length + 1 := by simp
    simp only [mddStep]
    rw [hcum, hpeak, hlen]
    have hdd : ((peakAt (xs ++ [e]) (xs.length + 1) - cumAt (xs ++ [e]) (xs.length + 1)) /
          (if peakAt (xs ++ [e]) (xs.length + 1) = 0 then 1
           else peakAt (xs ++ [e]) (xs.length + 1))) * 100
        = drawdownAt (xs ++ [e]) (xs.length + 1) := rfl
    rw [hdd, if_gt_eq_max, ← ddMax_append]

/-- Amended claim C1: `calculateMaxDrawdown` walks the records sorted
ascending by `id`, accumulates the cumulative sum and its running peak, and
returns the maximum over all steps of `(peak - cumulative) / d * 100`, where
the divisor `d` is the peak itself whenever the peak is nonzero and 1 only
when the peak is 0 (`peak || 1`); it returns 0 for an empty collection. -/
theorem maxDrawdown_eq_amendedSpec (entries : List DayEntry) :
    calculateMaxDrawdown entries = maxDrawdownSpecAmended entries := by
  unfold calculateMaxDrawdown maxDrawdownSpecAmended
  rw [mddStep_foldl]

/-- Counterexample to claim C1 as stated: with records
`[{id:"2024-01-01", totalPL: 1/2}, {id:"2024-01-02", totalPL: -1/2}]` the
peak is 1/2, strictly between 0 and 1; the code divides by the peak itself
(drawdown 100), not by `max(peak, 1)` (which would give 50). -/
theorem maxDrawdown_claim_counterexample :
    calculateMaxDrawdown [mkE "2024-01-01" (1/2), mkE "2024-01-02" (-1/2)] ≠
      maxDrawdownSpecClaim [mkE "2024-01-01" (1/2), mkE "2024-01-02" (-1/2)] := by
  have h : sortById [mkE "2024-01-01" (1/2), mkE "2024-01-02" (-1/2)] =
      [mkE "2024-01-01" (1/2), mkE "2024-01-02" (-1/2)] :=
    List.mergeSort_of_sorted (by decide)
  unfold calculateMaxDrawdown maxDrawdownSpecClaim
  rw [h]
  decide

/-- Amended claim C2: the three risk metrics as read off a sorted copy of the
`totalPL` values; the conditional VaR tail is the records strictly below the
95% index. -/
def riskMetricsSpecAmended (entries : List DayEntry) : RiskMetrics :=
  let vs := (entries.map (·.totalPL)).mergeSort fun a b => decide (a ≤ b)
  let i95 := entries.length * 5 / 100
  let i99 := entries.length * 1 / 100
  let tail := vs.take i95
  { valueAtRisk95 := (vs[i95]?).getD 0
    valueAtRisk99 := (vs[i99]?).getD 0
    conditionalVaR95 := if tail = [] then 0 else tail.sum / (tail.length : ℚ) }

/-- Claim C2 as stated for the conditional VaR: the mean over the records at
or below the 95% index. -/
def conditionalVaR95Claim (entries : List DayEntry) : ℚ :=
  let vs := (entries.map (·.totalPL)).mergeSort fun a b => decide (a ≤ b)
  let tail := vs.take (entries.length * 5 / 100 + 1)
  if tail = [] then 0 else tail.sum / (tail.length : ℚ)

/-- Amended claim C2: `calculateRiskMetrics` sorts ascending by `totalPL`,
reads `valueAtRisk95`/`99` at indices `floor(n*0.05)` and `floor(n*0.01)`
(0 when out of range, hence 0 on the empty collection), and averages the
records strictly below the 95% index for `conditionalVaR95` (0 when that
set is empty). -/
theorem riskMetrics_eq_amendedSpec (entries : List DayEntry) :
    calculateRiskMetrics entries = riskMetricsSpecAmended entries := by
  have hmap : (sortByPL entries).map (·.totalPL) =
      (entries.map (·.totalPL)).mergeSort (fun a b => decide (a ≤ b)) := by
    unfold sortByPL
    exact List.map_mergeSort (fun a _ b _ => rfl)
  have hlen : (sortByPL entries).length = entries.length := by
    unfold sortByPL
    exact List.length_mergeSort entries
  have htail : ∀ i : Nat, ((sortByPL entries).take i).map (·.totalPL) =
      ((entries.map (·.totalPL)).mergeSort (fun a b => decide (a ≤ b))).take i := by
    intro i
    rw [List.map_take, hmap]
  have hget : ∀ i : Nat, ((sortByPL entries)[i]?).map (·.totalPL) =
      ((entries.map (·.totalPL)).mergeSort (fun a b => decide (a ≤ b)))[i]? := by
    intro i
    rw [← hmap, List.getElem?_map]
  simp only [calculateRiskMetrics, riskMetricsSpecAmended, RiskMetrics.mk.injEq]
  rw [hlen]
  refine ⟨?_, ?_, ?_⟩
  · rw [← hget]
  · rw [← hget]
  · have hlen2 : ((sortByPL entries).take (entries.length * 5 / 100)).length =
        (((entries.map (·.totalPL)).mergeSort
          (fun a b => decide (a ≤ b))).take (entries.length * 5 / 100)).length := by
      rw [← htail, List.length_map]
    by_cases h0 : ((entries.map (·.totalPL)).mergeSort
        (fun a b => decide (a ≤ b))).take (entries.length * 5 / 100) = []
    · rw [if_pos h0]
      have : ((sortByPL entries).take (entries.length * 5 / 100)).length = 0 := by
        rw [hlen2, h0]
        rfl
      rw [this]
      simp
    · rw [if_neg h0]
      have hpos : ((sortByPL entries).take (entries.length * 5 / 100)).length > 0 := by
        rw [hlen2]
        exact List.length_pos.mpr h0
      rw [if_pos hpos, foldl_totalPL, htail, hlen2]
      simp

/-- Counterexample input for C2: twenty records with distinct `totalPL`
values 0..19, already sorted ascending, so `floor(20 * 0.05) = 1`. -/
def ceC2 : List DayEntry := (List.range 20).map fun i => mkE "d" (i : ℚ)

/-- Counterexample to claim C2 as stated: on `ceC2` the code averages only
the records strictly below index 1 (mean 0), while "at or below the index"
would average indices 0 and 1 (mean 1/2). -/
theorem riskMetrics_claim_counterexample :
    (calculateRiskMetrics ceC2).conditionalVaR95 ≠ conditionalVaR95Claim ceC2 := by
  have h1 : sortByPL ceC2 = ceC2 := List.mergeSort_of_sorted (by decide)
  have h2 : (ceC2.map (·.totalPL)).mergeSort (fun a b => decide (a ≤ b)) =
      ceC2.map (·.totalPL) := List.mergeSort_of_sorted (by decide)
  unfold calculateRiskMetrics conditionalVaR95Claim
  rw [h1, h2]
  decide

/-- Claim-side definition for C3, following the claim's wording: mean of
`totalPL` divided by the downside deviation (square root of the sum of
squared deviations below the mean divided by the full count N), annualized
by `sqrt 252`; `Infinity` when there is no return strictly below the mean
and the mean is positive, 0 otherwise, and 0 on the empty collection. -/
noncomputable def sortinoRatioSpec (entries : List DayEntry) : NumV ℝ :=
  if entries = [] then NumV.num 0
  else
    let returns : List ℝ := entries.map fun e => ((e.totalPL : ℚ) : ℝ)
    let mean := returns.sum / (returns.length : ℝ)
    let downside := returns.filter fun r => decide (r < mean)
    if downside = [] then (if mean > 0 then NumV.inf else NumV.num 0)
    else
      NumV.num ((mean / Real.sqrt ((downside.map fun r => (r - mean) ^ 2).sum /
        (returns.length : ℝ))) * Real.sqrt 252)

/-- Claim C3: `calculateSortinoRatio` agrees with the claim's formula (with
the deliberate full-sample-size divisor) on every collection. -/
theorem sortinoRatio_eq_spec (entries : List DayEntry) :
    calculateSortinoRatio entries = sortinoRatioSpec entries := by
  have hlen : (sortById entries).length = entries.length := by
    unfold sortById
    exact List.length_mergeSort entries
  by_cases h0 : entries = []
  · subst h0
    simp [calculateSortinoRatio, sortinoRatioSpec, sortById]
  · have hperm : (sortById entries).Perm entries := by
      unfold sortById
      exact List.mergeSort_perm entries _
    have hret : ((sortById entries).map fun e => ((e.totalPL : ℚ) : ℝ)).Perm
        (entries.map fun e => ((e.totalPL : ℚ) : ℝ)) :=
      hperm.map _
    have hsum := hret.sum_eq
    have hlen2 := hret.length_eq
    simp only [calculateSortinoRatio, sortinoRatioSpec]
    rw [if_neg (fun hh => h0 (by rwa [hlen, List.length_eq_zero] at hh)), if_neg h0]
    simp only [foldl_add_list, zero_add, hsum, hlen2]
    set f : DayEntry → ℝ := fun e => ((e.totalPL : ℚ) : ℝ) with hf
    set mean : ℝ := (entries.map f).sum / ((entries.map f).length : ℝ) with hmean
    have hfil : (((sortById entries).map f).filter fun r => decide (r < mean)).Perm
        ((entries.map f).filter fun r => decide (r < mean)) :=
      hret.filter _
    by_cases hd : ((entries.map f).filter fun r => decide (r < mean)) = []
    · rw [if_pos (by rw [hfil.length_eq, hd]; rfl), if_pos hd]
    · have hdlen : ¬((((sortById entries).map f).filter
          fun r => decide (r < mean)).length = 0) := by
        rw [hfil.length_eq, List.length_eq_zero]
        exact hd
      rw [if_neg hdlen, if_neg hd]
      have hvar : ((((sortById entries).map f).filter fun r => decide (r < mean)).foldl
            (fun sum r => sum + (r - mean) ^ 2) 0)
          = (((entries.map f).filter fun r => decide (r < mean)).map
              fun r => (r - mean) ^ 2).sum := by
        rw [foldl_add_map (fun r => (r - mean) ^ 2), zero_add]
        exact (hfil.map _).sum_eq
      rw [hvar]
      have hpos : 0 < (((entries.map f).filter fun r => decide (r < mean)).map
          fun r => (r - mean) ^ 2).sum / ((entries.map f).length : ℝ) := by
        apply div_pos
        · apply List.sum_pos
          · intro x hx
            rw [List.mem_map] at hx
            obtain ⟨r, hr, rfl⟩ := hx
            rw [List.mem_filter] at hr
            have hrm : r < mean := of_decide_eq_true hr.2
            exact pow_two_pos_of_ne_zero (sub_ne_zero.mpr hrm.ne)
          · intro hnil
            rw [List.map_eq_nil_iff] at hnil
            exact hd hnil
        · rw [List.length_map]
          have : entries.length ≠ 0 := fun hh => h0 (List.length_eq_zero.mp hh)
          exact_mod_cast Nat.pos_of_ne_zero this
      rw [if_neg (ne_of_gt (Real.sqrt_pos.mpr hpos))]

/-- Claim C5: for any six records on six distinct ascending dates whose
`totalPL` values in date order are +100, +50, -30, -10, -5, +20,
`getWinLossStreaks` reports longest win streak 2, longest loss streak 3 and
a current streak of 1. -/
theorem winLossStreaks_example (d1 d2 d3 d4 d5 d6 : String)
    (h12 : d1 < d2) (h23 : d2 < d3) (h34 : d3 < d4) (h45 : d4 < d5)
    (h56 : d5 < d6) :
    getWinLossStreaks [mkE d1 100, mkE d2 50, mkE d3 (-30), mkE d4 (-10),
        mkE d5 (-5), mkE d6 20] =
      { currentStreak := 1, longestWinStreak := 2, longestLossStreak := 3 } := by
  have h13 : d1 < d3 := h12.trans h23
  have h14 : d1 < d4 := h13.trans h34
  have h15 : d1 < d5 := h14.trans h45
  have h16 : d1 < d6 := h15.trans h56
  have h24 : d2 < d4 := h23.trans h34
  have h25 : d2 < d5 := h24.trans h45
  have h26 : d2 < d6 := h25.trans h56
  have h35 : d3 < d5 := h34.trans h45
  have h36 : d3 < d6 := h35.trans h56
  have h46 : d4 < d6 := h45.trans h56
  have hpair : List.Pairwise (fun a b : DayEntry => decide (a.id ≤ b.id) = true)
      [mkE d1 100, mkE d2 50, mkE d3 (-30), mkE d4 (-10), mkE d5 (-5), mkE d6 20] := by
    refine List.Pairwise.cons ?_ (List.Pairwise.cons ?_ (List.Pairwise.cons ?_
      (List.Pairwise.cons ?_ (List.Pairwise.cons ?_
        (List.pairwise_singleton _ _))))) <;>
      intro b hb <;> fin_cases hb <;>
        first
          | exact decide_eq_true h12.le
          | exact decide_eq_true h13.le
          | exact decide_eq_true h14.le
          | exact decide_eq_true h15.le
          | exact decide_eq_true h16.le
          | exact decide_eq_true h23.le
          | exact decide_eq_true h24.le
          | exact decide_eq_true h25.le
          | exact decide_eq_true h26.le
          | exact decide_eq_true h34.le
          | exact decide_eq_true h35.le
          | exact decide_eq_true h36.le
          | exact decide_eq_true h45.le
          | exact decide_eq_true h46.le
          | exact decide_eq_true h56.le
  have hsort : sortById [mkE d1 100, mkE d2 50, mkE d3 (-30), mkE d4 (-10),
      mkE d5 (-5), mkE d6 20] =
      [mkE d1 100, mkE d2 50, mkE d3 (-30), mkE d4 (-10), mkE d5 (-5), mkE d6 20] :=
    List.mergeSort_of_sorted hpair
  unfold getWinLossStreaks
  rw [hsort]
  rfl

/-- Witness for C5 at six concrete ascending date keys. -/
theorem winLossStreaks_example_witness :
    getWinLossStreaks [mkE "2024-01-01" 100, mkE "2024-01-02" 50,
        mkE "2024-01-03" (-30), mkE "2024-01-04" (-10), mkE "2024-01-05" (-5),
        mkE "2024-01-06" 20] =
      { currentStreak := 1, longestWinStreak := 2, longestLossStreak := 3 } :=
  winLossStreaks_example "2024-01-01" "2024-01-02" "2024-01-03" "2024-01-04"
    "2024-01-05" "2024-01-06" (by decide) (by decide) (by decide) (by decide)
    (by decide)
